import Mathlib

/-!
Shallow embedding of the `learn-testing` repository core: the custom HTTP
router and the httpbin-style mirror handler of `server/main.ts`, plus the
env-var URL resolution of `specs/steps/form.ts`.

Modelling conventions:
* JavaScript plain objects used as string-keyed dictionaries are embedded as
  association lists `List (String × α)` in property-insertion order;
  `recordSet` is the JS assignment `obj[k] = v` (overwrite in place, else
  append), `lookupRec` is property lookup.
* Node's `querystring.parse` and the WHATWG `URLSearchParams` iteration both
  split the input on `&` (skipping empty segments), split each segment at the
  first `=`, and decode `+` as space and `%XX` percent-escapes; this shared
  byte-level step is embedded as `decodeSegments`. `URLSearchParams` has no
  pair limit (`urlencodedPairs`), while `querystring.parse` — called by
  `parseForm` with no options — processes only the first 1000 `&`-separated
  segments, its default `maxKeys` budget, which Node decrements on every
  separator, empty segments included (`qsBodyPairs`; the cap is exercised by
  `parseForm_maxKeys_truncation`). Multi-byte UTF-8 percent-sequences are
  not modelled (ASCII percent-decoding only); no claim depends on them.
* `JSON.parse` is Node's builtin; it is modelled as an arbitrary function
  `String → Option J` where `none` stands for a thrown parse error.
* Filesystem reads (`fs.readFile`) and the process environment
  (`process.env`) are modelled as parameters (`Option String`-valued).
-/

namespace LearnTesting

/-- JS property lookup `obj[k]` on an association list in insertion order. -/
def lookupRec (k : String) : List (String × α) → Option α
  | [] => none
  | (k0, v0) :: rest => if k0 = k then some v0 else lookupRec k rest

/-- JS property assignment `obj[k] = v`: overwrite the value in place if the
key is present, otherwise append the new property at the end. -/
def recordSet (obj : List (String × α)) (k : String) (v : α) : List (String × α) :=
  match obj with
  | [] => [(k, v)]
  | (k0, v0) :: rest => if k0 = k then (k0, v) :: rest else (k0, v0) :: recordSet rest k v

/-- A JS `for`-loop performing `obj[k] = v` for each pair in order. -/
def buildRecord (obj : List (String × α)) : List (String × α) → List (String × α)
  | [] => obj
  | (k, v) :: rest => buildRecord (recordSet obj k v) rest

/-- The value of the last occurrence of key `k` in a pair list (the value a
sequence of JS assignments leaves behind). -/
def lastVal (k : String) : List (String × α) → Option α
  | [] => none
  | (k0, v0) :: rest =>
    match lastVal k rest with
    | some v => some v
    | none => if k0 = k then some v0 else none

/-- All values of key `k` in a pair list, in order of occurrence. -/
def allVals (k : String) : List (String × α) → List α
  | [] => []
  | (k0, v0) :: rest => if k0 = k then v0 :: allVals k rest else allVals k rest

/-- Does `pat` occur as an initial segment of `l`? -/
def leadsWith : List Char → List Char → Bool
  | [], _ => true
  | _ :: _, [] => false
  | a :: as, b :: bs => a == b && leadsWith as bs

/-- Does `l` contain `pat` as a contiguous run? (JS `String.prototype.includes`.) -/
def hasSubstr (pat : List Char) : List Char → Bool
  | [] => leadsWith pat []
  | c :: rest => leadsWith pat (c :: rest) || hasSubstr pat rest

/-- JS `s.includes(pat)`. -/
def strIncludes (s pat : String) : Bool :=
  hasSubstr pat.data s.data

/-- JS `s.startsWith(pat)`. -/
def strStartsWith (s pat : String) : Bool :=
  leadsWith pat.data s.data

/-- Replace the first occurrence of `pat` in the list by `repl`
(JS `String.prototype.replace` with a string pattern). -/
def replaceFirstSub (pat repl : List Char) : List Char → List Char
  | [] => if leadsWith pat [] then repl else []
  | c :: rest =>
    if leadsWith pat (c :: rest) then repl ++ (c :: rest).drop pat.length
    else c :: replaceFirstSub pat repl rest

/-- JS `s.replace(pat, repl)` (string pattern: first occurrence only). -/
def jsReplaceFirst (s pat repl : String) : String :=
  String.mk (replaceFirstSub pat.data repl.data s.data)

/-- Numeric value of an ASCII hex digit, if it is one. -/
def hexDigit (c : Char) : Option Nat :=
  if '0' ≤ c ∧ c ≤ '9' then some (c.toNat - 48)
  else if 'a' ≤ c ∧ c ≤ 'f' then some (c.toNat - 87)
  else if 'A' ≤ c ∧ c ≤ 'F' then some (c.toNat - 55)
  else none

/-- Urlencoded unescaping as performed both by Node's `querystring.unescape`
and by `URLSearchParams`: `+` becomes a space, a valid `%XX` escape becomes the
byte's character, and malformed escapes are kept verbatim. -/
def unescapePlus : List Char → List Char
  | [] => []
  | '+' :: rest => ' ' :: unescapePlus rest
  | '%' :: c1 :: c2 :: rest =>
    match hexDigit c1, hexDigit c2 with
    | some h1, some h2 => Char.ofNat (16 * h1 + h2) :: unescapePlus rest
    | _, _ => '%' :: unescapePlus (c1 :: c2 :: rest)
  | c :: rest => c :: unescapePlus rest

/-- Split a character list on `&` separators. -/
def splitAmp : List Char → List (List Char)
  | [] => [[]]
  | '&' :: rest => [] :: splitAmp rest
  | c :: rest =>
    match splitAmp rest with
    | [] => [[c]]
    | seg :: segs => (c :: seg) :: segs

/-- Split a segment at its first `=`; with no `=` the value part is empty. -/
def splitEq : List Char → List Char × List Char
  | [] => ([], [])
  | '=' :: rest => ([], rest)
  | c :: rest =>
    let p := splitEq rest
    (c :: p.1, p.2)

/-- Decode a list of `&`-split segments into key/value pairs, in order:
empty segments are skipped (as both Node `querystring.parse` and
`URLSearchParams` do), each remaining segment is split at its first `=`,
and both sides are unescaped. -/
def decodeSegments (segs : List (List Char)) : List (String × String) :=
  (segs.filter (fun seg => !seg.isEmpty)).map fun seg =>
    let p := splitEq seg
    (String.mk (unescapePlus p.1), String.mk (unescapePlus p.2))

/-- The decoded key/value pairs of an urlencoded string, in submission
order, with no segment limit: the `URLSearchParams` iteration of the query
string (the WHATWG parser has no pair cap). -/
def urlencodedPairs (s : String) : List (String × String) :=
  decodeSegments (splitAmp s.data)

/-- Node `querystring.parse`'s default `maxKeys` budget. The repository
calls `querystring.parse(body)` with no options, so the default applies. -/
def qsMaxKeys : Nat := 1000

/-- The pairs `querystring.parse(body)` actually processes: only the first
`qsMaxKeys` `&`-separated segments are considered — Node decrements its
budget on every separator, so an empty segment consumes budget without
contributing a pair — and every later segment is silently dropped. -/
def qsBodyPairs (s : String) : List (String × String) :=
  decodeSegments ((splitAmp s.data).take qsMaxKeys)

/-- The value side of a Node `querystring.parse` result object: a single
string for a key seen once, an array for a repeated key. -/
inductive QSVal where
  | one (s : String)
  | many (vs : List String)
deriving DecidableEq

/-- `Array.isArray(value) ? value : [value]` on a `querystring.parse` value. -/
def qsValues : QSVal → List String
  | .one s => [s]
  | .many vs => vs

/-- How `querystring.parse` accumulates one `key=value` pair into its result
object: a fresh key is stored as a single string, a second occurrence turns
the entry into a two-element array, later occurrences push onto the array. -/
def qsStep : Option QSVal → String → QSVal
  | none, v => .one v
  | some (.one s), v => .many [s, v]
  | some (.many ws), v => .many (ws ++ [v])

/-- In-place accumulation of a pair into the `querystring.parse` object. -/
def qsInsert (obj : List (String × QSVal)) (k : String) (v : String) :
    List (String × QSVal) :=
  match obj with
  | [] => [(k, qsStep none v)]
  | (k0, v0) :: rest =>
    if k0 = k then (k0, qsStep (some v0) v) :: rest
    else (k0, v0) :: qsInsert rest k v

/-- The accumulation loop of `querystring.parse`. -/
def qsBuild (obj : List (String × QSVal)) : List (String × String) → List (String × QSVal)
  | [] => obj
  | (k, v) :: rest => qsBuild (qsInsert obj k v) rest

/-- Node `querystring.parse(body)` with default options: fold the decoded
pairs of the first `qsMaxKeys` segments into an object. -/
def querystringParse (body : String) : List (String × QSVal) :=
  qsBuild [] (qsBodyPairs body)

/-- A value of Node's `IncomingHttpHeaders`: a single string, or an array of
strings (Node uses the array form only for `set-cookie`). -/
inductive NodeHV where
  | str (s : String)
  | arr (vs : List String)
deriving DecidableEq

/-- `Array.isArray(value) ? value : [value]`. -/
def hvList : NodeHV → List String
  | .str s => [s]
  | .arr vs => vs

/-- `key.charAt(0).toUpperCase() + key.slice(1)` from `parseHeaders`. -/
def capFirst (s : String) : String :=
  match s.data with
  | [] => ""
  | c :: rest => String.mk (c.toUpper :: rest)

/-- The sequence of `(capitalizedKey, listified value)` pairs the
`parseHeaders` loop assigns, in declaration order: entries with an
`undefined` value are skipped. -/
def headerEntries (hs : List (String × Option NodeHV)) : List (String × List String) :=
  hs.filterMap fun kv => kv.2.map fun v => (capFirst kv.1, hvList v)

/-- `parseHeaders` from `server/main.ts`: build a result object by assigning
`result[capitalizedKey] = listified value` for every defined header entry. -/
def parseHeaders (hs : List (String × Option NodeHV)) : List (String × List String) :=
  buildRecord [] (headerEntries hs)

/-- The `(key, listified value)` pairs of the `parseForm` loop, in the key
insertion order of the `querystring.parse` result (its values are never
`undefined`, so the loop's `undefined` guard never skips). -/
def formEntries (body : String) : List (String × List String) :=
  (querystringParse body).map fun kv => (kv.1, qsValues kv.2)

/-- `parseForm` from `server/main.ts`: `querystring.parse` the body, then
assign `result[key] = Array.isArray(value) ? value : [value]` per entry. -/
def parseForm (body : String) : List (String × List String) :=
  buildRecord [] (formEntries body)

/-- JS `Object.fromEntries`: assign each pair in order, so a repeated key
keeps only its last value. -/
def fromEntries (pairs : List (String × String)) : List (String × String) :=
  buildRecord [] pairs

/-- `req.headers["content-type"] || ""`. Node stores the header value of
`content-type` as a single string (the array form is used for `set-cookie`
only), and lowercases incoming header names; a missing header is `""`. -/
def contentTypeOf (hs : List (String × Option NodeHV)) : String :=
  match lookupRec "content-type" hs with
  | some (some (NodeHV.str s)) => s
  | _ => ""

/-- A buffered POST request as seen by the `/post` handler. `query` is the
search portion of `req.url` (after the `?`), `headers` is Node's
`req.headers` object (names lowercased by Node, values possibly `undefined`
per its typing), `body` is the fully buffered body string. The `url` field
carries `parsedUrl.href` (WHATWG normalization is not modelled; no claim
touches this field). -/
structure MirrorRequest where
  method : String
  url : String
  query : String
  headers : List (String × Option NodeHV)
  remoteAddress : Option String
  body : String

/-- The mirror response record assembled by the `/post` handler. -/
structure MirrorResponse (J : Type) where
  args : List (String × String)
  headers : List (String × List String)
  method : String
  origin : String
  url : String
  data : String
  files : List (String × String)
  form : List (String × List String)
  json : Option J

/-- What the handler writes: `res.writeHead(status, headersOut)` followed by
the JSON-serialized payload. -/
structure HandlerOutput (J : Type) where
  status : Nat
  headersOut : List (String × String)
  payload : MirrorResponse J

/-- The `router.post("/post")` handler of `server/main.ts`. `parseJson`
stands for Node's `JSON.parse`; its `none` result models a thrown parse
error, which the source catches and absorbs (`json` stays `null`). The
content-type dispatch checks the JSON substring first, the form substring in
the `else if`, and otherwise leaves both `json = null` and `form = {}`. -/
def postHandler {J : Type} (parseJson : String → Option J) (req : MirrorRequest) :
    HandlerOutput J :=
  let contentType := contentTypeOf req.headers
  let json : Option J :=
    if strIncludes contentType "application/json" then parseJson req.body else none
  let form : List (String × List String) :=
    if strIncludes contentType "application/json" then []
    else if strIncludes contentType "application/x-www-form-urlencoded" then
      parseForm req.body
    else []
  { status := 200
    headersOut := [("Content-Type", "application/json")]
    payload :=
      { args := fromEntries (urlencodedPairs req.query)
        headers := parseHeaders req.headers
        method := req.method
        origin := req.remoteAddress.getD "unknown"
        url := req.url
        data := req.body
        files := []
        form := form
        json := json } }

/-- A registered route: `{method, path, handler}`. `H` is the handler type
(callbacks are opaque to the router). -/
structure Route (H : Type) where
  method : String
  path : String
  handler : H

/-- A response written directly by the router (the 404 case) or by an
auxiliary handler: status, `writeHead` headers, body, and whether `res.end`
was called. -/
structure WrittenResponse where
  status : Nat
  headers : List (String × String)
  body : String
  ended : Bool
deriving DecidableEq

/-- The predicate of `routes.find(r => r.method === method && r.path === pathname)`:
exact string comparison on both components. -/
def routeMatches (r : Route H) (method pathname : String) : Bool :=
  r.method == method && r.path == pathname

/-- `Router.handle`: find the first route whose method and pathname match
exactly; dispatch to its handler (for POST, after buffering the body — the
buffering does not affect which handler runs), or write the fixed 404
response. `pathname` is the request path without its query string (extracted
by `new URL(req.url, ...)`). -/
def routerHandle (routes : List (Route H)) (method pathname : String) :
    Sum H WrittenResponse :=
  match routes.find? (fun r => routeMatches r method pathname) with
  | some r => Sum.inl r.handler
  | none =>
    Sum.inr { status := 404, headers := [("Content-Type", "text/plain")]
              body := "Not Found", ended := true }

/-- `Router.get`: push a GET registration onto the route list. -/
def routerGet (routes : List (Route H)) (path : String) (handler : H) : List (Route H) :=
  routes ++ [{ method := "GET", path := path, handler := handler }]

/-- `Router.post`: push a POST registration onto the route list. -/
def routerPost (routes : List (Route H)) (path : String) (handler : H) : List (Route H) :=
  routes ++ [{ method := "POST", path := path, handler := handler }]

/-- The `router.get("/forms/post")` handler: `fs.readFile` of the static form
page, modelled by its outcome `readResult` (`none` is any read error). On
error it writes 404 `text/plain` with body `"File not found"`; on success it
writes 200 `text/html` with the file contents. -/
def formsPostHandler (readResult : Option String) : WrittenResponse :=
  match readResult with
  | none =>
    { status := 404, headers := [("Content-Type", "text/plain")]
      body := "File not found", ended := true }
  | some fileData =>
    { status := 200, headers := [("Content-Type", "text/html")]
      body := fileData, ended := true }

/-- `FormSubmissionTest.navigateToUrl` from `specs/steps/form.ts`, up to the
`page.goto` call: `env` is `process.env`. A URL starting with `"env"` is
resolved by stripping the first `"env:"` and reading that variable; a falsy
value (unset, or set to the empty string) raises before any navigation. The
`Except.ok` value is the URL that would be passed to `page.goto`; `.error`
means the step throws before any network action. -/
def navigateToUrl (env : String → Option String) (url : String) : Except String String :=
  if strStartsWith url "env" then
    let envUrl : Option String := env (jsReplaceFirst url "env:" "")
    match envUrl with
    | none => Except.error ("Environment variable for URL '" ++ url ++ "' is not set.")
    | some v =>
      if v = "" then Except.error ("Environment variable for URL '" ++ url ++ "' is not set.")
      else Except.ok v
  else Except.ok url

/-! ### Association-list lemmas -/

theorem lookupRec_recordSet (obj : List (String × α)) (k k0 : String) (v : α) :
    lookupRec k (recordSet obj k0 v) = if k0 = k then some v else lookupRec k obj := by
  induction obj with
  | nil => simp [recordSet, lookupRec]
  | cons hd tl ih =>
    obtain ⟨k1, v1⟩ := hd
    by_cases h1 : k1 = k0
    · subst h1
      by_cases h2 : k1 = k <;> simp [recordSet, lookupRec, h2]
    · by_cases h2 : k1 = k
      · subst h2
        simp [recordSet, lookupRec, h1, Ne.symm h1]
      · simp [recordSet, lookupRec, h1, h2, ih]

theorem lookupRec_buildRecord (pairs : List (String × α)) (obj : List (String × α))
    (k : String) :
    lookupRec k (buildRecord obj pairs) =
      match lastVal k pairs with
      | some v => some v
      | none => lookupRec k obj := by
  induction pairs generalizing obj with
  | nil => simp [buildRecord, lastVal]
  | cons hd tl ih =>
    obtain ⟨k0, v0⟩ := hd
    rw [buildRecord, ih, lastVal]
    cases lastVal k tl with
    | some v => simp
    | none =>
      rw [lookupRec_recordSet]
      by_cases h : k0 = k <;> simp [h]

theorem lookupRec_buildRecord_nil (pairs : List (String × α)) (k : String) :
    lookupRec k (buildRecord [] pairs) = lastVal k pairs := by
  rw [lookupRec_buildRecord]
  cases lastVal k pairs <;> simp [lookupRec]

theorem keys_recordSet (obj : List (String × α)) (k : String) (v : α) :
    (recordSet obj k v).map Prod.fst =
      if k ∈ obj.map Prod.fst then obj.map Prod.fst else obj.map Prod.fst ++ [k] := by
  induction obj with
  | nil => simp [recordSet]
  | cons hd tl ih =>
    obtain ⟨k1, v1⟩ := hd
    by_cases h1 : k1 = k
    · subst h1
      simp [recordSet]
    · simp only [recordSet, if_neg h1, List.map_cons, ih]
      by_cases h2 : k ∈ tl.map Prod.fst <;>
        simp [h2, Ne.symm h1]

theorem nodup_recordSet (obj : List (String × α)) (k : String) (v : α)
    (h : (obj.map Prod.fst).Nodup) : ((recordSet obj k v).map Prod.fst).Nodup := by
  rw [keys_recordSet]
  by_cases hm : k ∈ obj.map Prod.fst
  · simpa [hm] using h
  · simp only [hm, if_false]
    simpa [List.nodup_append, hm] using h

theorem nodup_buildRecord (pairs : List (String × α)) (obj : List (String × α))
    (h : (obj.map Prod.fst).Nodup) : ((buildRecord obj pairs).map Prod.fst).Nodup := by
  induction pairs generalizing obj with
  | nil => simpa [buildRecord] using h
  | cons hd tl ih =>
    obtain ⟨k0, v0⟩ := hd
    exact ih _ (nodup_recordSet obj k0 v0 h)

theorem recordSet_of_not_mem (obj : List (String × α)) (k : String) (v : α)
    (h : k ∉ obj.map Prod.fst) : recordSet obj k v = obj ++ [(k, v)] := by
  induction obj with
  | nil => simp [recordSet]
  | cons hd tl ih =>
    obtain ⟨k1, v1⟩ := hd
    simp only [List.map_cons, List.mem_cons] at h
    push_neg at h
    simp [recordSet, Ne.symm h.1, ih h.2]

theorem buildRecord_of_nodup (pairs : List (String × α)) (obj : List (String × α))
    (hn : (pairs.map Prod.fst).Nodup)
    (hd : ∀ k ∈ pairs.map Prod.fst, k ∉ obj.map Prod.fst) :
    buildRecord obj pairs = obj ++ pairs := by
  induction pairs generalizing obj with
  | nil => simp [buildRecord]
  | cons hd0 tl ih =>
    obtain ⟨k0, v0⟩ := hd0
    simp only [List.map_cons, List.nodup_cons] at hn
    rw [buildRecord, recordSet_of_not_mem obj k0 v0 (hd k0 (by simp))]
    rw [ih (obj ++ [(k0, v0)]) hn.2]
    · simp
    · intro k hk
      have hk0 : k ∈ ((k0, v0) :: tl).map Prod.fst := by
        simp only [List.map_cons, List.mem_cons]
        exact Or.inr hk
      simp only [List.map_append, List.mem_append, List.map_cons, List.map_nil,
        List.mem_singleton, not_or]
      refine ⟨hd k hk0, ?_⟩
      intro he
      exact hn.1 (he ▸ hk)

theorem lookupRec_map_snd (l : List (String × α)) (f : α → β) (k : String) :
    lookupRec k (l.map fun kv => (kv.1, f kv.2)) = (lookupRec k l).map f := by
  induction l with
  | nil => simp [lookupRec]
  | cons hd tl ih =>
    obtain ⟨k0, v0⟩ := hd
    by_cases h : k0 = k <;> simp [lookupRec, h, ih]

theorem lastVal_of_not_mem (l : List (String × α)) (k : String)
    (h : k ∉ l.map Prod.fst) : lastVal k l = none := by
  induction l with
  | nil => simp [lastVal]
  | cons hd tl ih =>
    obtain ⟨k0, v0⟩ := hd
    simp only [List.map_cons, List.mem_cons] at h
    push_neg at h
    simp [lastVal, ih h.2, Ne.symm h.1]

theorem lastVal_eq_lookupRec_of_nodup (l : List (String × α)) (k : String)
    (h : (l.map Prod.fst).Nodup) : lastVal k l = lookupRec k l := by
  induction l with
  | nil => simp [lastVal, lookupRec]
  | cons hd tl ih =>
    obtain ⟨k0, v0⟩ := hd
    simp only [List.map_cons, List.nodup_cons] at h
    by_cases hk : k0 = k
    · subst hk
      rw [lastVal, lastVal_of_not_mem tl k0 h.1]
      simp [lookupRec]
    · have hcons : lookupRec k ((k0, v0) :: tl) = lookupRec k tl := by
        simp [lookupRec, hk]
      rw [lastVal, hcons, ← ih h.2]
      cases h' : lastVal k tl <;> simp [h', hk]

theorem lastVal_eq_reverse_find (l : List (String × α)) (k : String) :
    lastVal k l = (l.reverse.find? fun kv => kv.1 == k).map Prod.snd := by
  induction l with
  | nil => simp [lastVal]
  | cons hd tl ih =>
    obtain ⟨k0, v0⟩ := hd
    rw [lastVal, ih]
    simp only [List.reverse_cons, List.find?_append]
    cases hf : tl.reverse.find? fun kv => kv.1 == k with
    | some kv => simp [Option.orElse]
    | none =>
      by_cases h : k0 = k
      · simp [Option.orElse, List.find?, h]
      · have hb : (k0 == k) = false := by simp [h]
        simp [Option.orElse, List.find?, hb, h]

/-! ### querystring.parse lemmas -/

/-- Pointwise accumulation of a run of values for one key. -/
def qsAcc : Option QSVal → List String → Option QSVal
  | o, [] => o
  | o, v :: vs => qsAcc (some (qsStep o v)) vs

theorem lookupRec_qsInsert (obj : List (String × QSVal)) (k k0 v : String) :
    lookupRec k (qsInsert obj k0 v) =
      if k0 = k then some (qsStep (lookupRec k obj) v) else lookupRec k obj := by
  induction obj with
  | nil => simp [qsInsert, lookupRec]
  | cons hd tl ih =>
    obtain ⟨k1, v1⟩ := hd
    by_cases h1 : k1 = k0
    · subst h1
      by_cases h2 : k1 = k <;> simp [qsInsert, lookupRec, h2]
    · by_cases h2 : k1 = k
      · subst h2
        simp [qsInsert, lookupRec, h1, Ne.symm h1]
      · simp [qsInsert, lookupRec, h1, h2, ih]

theorem lookupRec_qsBuild (pairs : List (String × String)) (obj : List (String × QSVal))
    (k : String) :
    lookupRec k (qsBuild obj pairs) = qsAcc (lookupRec k obj) (allVals k pairs) := by
  induction pairs generalizing obj with
  | nil => simp [qsBuild, allVals, qsAcc]
  | cons hd tl ih =>
    obtain ⟨k0, v0⟩ := hd
    rw [qsBuild, ih, allVals]
    by_cases h : k0 = k
    · simp [h, lookupRec_qsInsert, qsAcc]
    · simp [h, lookupRec_qsInsert]

theorem qsAcc_many (vs : List String) (ws : List String) :
    qsAcc (some (QSVal.many ws)) vs = some (QSVal.many (ws ++ vs)) := by
  induction vs generalizing ws with
  | nil => simp [qsAcc]
  | cons v vs ih => simp [qsAcc, qsStep, ih]

theorem qsAcc_none_map (vs : List String) :
    (qsAcc none vs).map qsValues = if vs = [] then none else some vs := by
  cases vs with
  | nil => simp [qsAcc]
  | cons v vs =>
    simp only [qsAcc, qsStep, List.cons_ne_self, if_neg]
    cases vs with
    | nil => simp [qsAcc, qsValues]
    | cons w ws => simp [qsAcc, qsStep, qsAcc_many, qsValues]

theorem keys_qsInsert (obj : List (String × QSVal)) (k : String) (v : String) :
    (qsInsert obj k v).map Prod.fst =
      if k ∈ obj.map Prod.fst then obj.map Prod.fst else obj.map Prod.fst ++ [k] := by
  induction obj with
  | nil => simp [qsInsert]
  | cons hd tl ih =>
    obtain ⟨k1, v1⟩ := hd
    by_cases h1 : k1 = k
    · subst h1
      simp [qsInsert]
    · simp only [qsInsert, if_neg h1, List.map_cons, ih]
      by_cases h2 : k ∈ tl.map Prod.fst <;>
        simp [h2, Ne.symm h1]

theorem nodup_qsBuild (pairs : List (String × String)) (obj : List (String × QSVal))
    (h : (obj.map Prod.fst).Nodup) : ((qsBuild obj pairs).map Prod.fst).Nodup := by
  induction pairs generalizing obj with
  | nil => simpa [qsBuild] using h
  | cons hd tl ih =>
    obtain ⟨k0, v0⟩ := hd
    refine ih _ ?_
    rw [keys_qsInsert]
    by_cases hm : k0 ∈ obj.map Prod.fst
    · simpa [hm] using h
    · simp only [hm, if_false]
      simpa [List.nodup_append, hm] using h

theorem nodup_querystringParse (body : String) :
    ((querystringParse body).map Prod.fst).Nodup :=
  nodup_qsBuild _ [] (by simp)

/-- The central `parseForm` fact: looking up a key in the form object yields
exactly the list of all that key's values among the pairs
`querystring.parse` processes (the first `qsMaxKeys` segments), in
submission order — `none` when the key contributes no such pair. -/
theorem lookupRec_parseForm (body : String) (k : String) :
    lookupRec k (parseForm body) =
      if allVals k (qsBodyPairs body) = [] then none
      else some (allVals k (qsBodyPairs body)) := by
  have hkeys : (formEntries body).map Prod.fst = (querystringParse body).map Prod.fst := by
    simp [formEntries, List.map_map, Function.comp]
  rw [parseForm, lookupRec_buildRecord_nil,
    lastVal_eq_lookupRec_of_nodup _ _ (by rw [hkeys]; exact nodup_querystringParse body),
    formEntries, lookupRec_map_snd, querystringParse, lookupRec_qsBuild]
  simpa [lookupRec] using qsAcc_none_map (allVals k (qsBodyPairs body))

/-! ### The maxKeys cap, exercised at its real value -/

/-- `n` copies of the segment `a` followed by its separator: `a&a&…a&`. -/
def ampRun : Nat → List Char
  | 0 => []
  | n + 1 => 'a' :: '&' :: ampRun n

/-- A body with `qsMaxKeys` `a` segments followed by a 1001st segment
`b=2`. -/
def longBody : String :=
  String.mk (ampRun qsMaxKeys ++ ['b', '=', '2'])

theorem splitAmp_ampRun (n : Nat) (l : List Char) :
    splitAmp (ampRun n ++ l) = List.replicate n ['a'] ++ splitAmp l := by
  induction n with
  | zero => simp [ampRun]
  | succ n ih =>
    show splitAmp ('a' :: '&' :: (ampRun n ++ l)) = _
    rw [show splitAmp ('a' :: '&' :: (ampRun n ++ l)) =
        ['a'] :: splitAmp (ampRun n ++ l) from rfl, ih]
    rfl

theorem take_replicate_append (n : Nat) (a : α) (l : List α) :
    (List.replicate n a ++ l).take n = List.replicate n a := by
  induction n with
  | zero => rfl
  | succ n ih => rw [List.replicate_succ, List.cons_append, List.take_succ_cons, ih]

theorem decodeSegments_cons_a (segs : List (List Char)) :
    decodeSegments (['a'] :: segs) = ("a", "") :: decodeSegments segs := rfl

theorem decodeSegments_replicate_a (n : Nat) :
    decodeSegments (List.replicate n ['a']) = List.replicate n ("a", "") := by
  induction n with
  | zero => rfl
  | succ n ih => rw [List.replicate_succ, decodeSegments_cons_a, ih, List.replicate_succ]

theorem decodeSegments_replicate_a_append (n : Nat) (segs : List (List Char)) :
    decodeSegments (List.replicate n ['a'] ++ segs) =
      List.replicate n ("a", "") ++ decodeSegments segs := by
  induction n with
  | zero => rfl
  | succ n ih =>
    rw [List.replicate_succ, List.cons_append, decodeSegments_cons_a, ih,
      List.replicate_succ, List.cons_append]

theorem allVals_replicate_a (n : Nat) :
    allVals "b" (List.replicate n (("a", "") : String × String)) = [] := by
  induction n with
  | zero => rfl
  | succ n ih =>
    rw [List.replicate_succ, allVals, if_neg (by decide : ¬ ("a" : String) = "b"), ih]

/-- Node's default `maxKeys` budget, exercised: `longBody` submits 1000 `a`
segments and then `b=2`. The uncapped pair list (what `URLSearchParams`
would decode) still contains `("b", "2")`, but `querystring.parse` stops
after `qsMaxKeys` segments, so `parseForm` drops the `b` key entirely. -/
theorem parseForm_maxKeys_truncation :
    urlencodedPairs longBody = List.replicate qsMaxKeys ("a", "") ++ [("b", "2")] ∧
    qsBodyPairs longBody = List.replicate qsMaxKeys ("a", "") ∧
    lookupRec "b" (parseForm longBody) = none := by
  have hsplit : splitAmp longBody.data = List.replicate qsMaxKeys ['a'] ++ [['b', '=', '2']] := by
    have h1 : longBody.data = ampRun qsMaxKeys ++ ['b', '=', '2'] := rfl
    rw [h1, splitAmp_ampRun]
    rfl
  have hcap : qsBodyPairs longBody = List.replicate qsMaxKeys ("a", "") := by
    rw [qsBodyPairs, hsplit, take_replicate_append, decodeSegments_replicate_a]
  refine ⟨?_, hcap, ?_⟩
  · rw [urlencodedPairs, hsplit, decodeSegments_replicate_a_append]
    rfl
  · rw [lookupRec_parseForm, hcap, allVals_replicate_a]
    rfl

/-! ### String-scanning lemmas -/

theorem data_append (a b : String) : (a ++ b).data = a.data ++ b.data := by
  cases a
  cases b
  rfl

theorem leadsWith_append (p w : List Char) : leadsWith p (p ++ w) = true := by
  induction p with
  | nil => rfl
  | cons c cs ih => simp [leadsWith, ih]

theorem leadsWith_extend (p p' w : List Char) (h : leadsWith p p' = true) :
    leadsWith p (p' ++ w) = true := by
  induction p generalizing p' with
  | nil => rfl
  | cons c cs ih =>
    cases p' with
    | nil => simp [leadsWith] at h
    | cons d ds =>
      simp only [leadsWith, Bool.and_eq_true, beq_iff_eq] at h
      simp only [List.cons_append, leadsWith, Bool.and_eq_true, beq_iff_eq]
      exact ⟨h.1, ih ds h.2⟩

theorem hasSubstr_of_leadsWith (pat l : List Char) (h : leadsWith pat l = true) :
    hasSubstr pat l = true := by
  cases l with
  | nil => simpa [hasSubstr] using h
  | cons c rest => simp [hasSubstr, h]

theorem hasSubstr_middle (pat l1 l2 : List Char) :
    hasSubstr pat (l1 ++ (pat ++ l2)) = true := by
  induction l1 with
  | nil => simpa using hasSubstr_of_leadsWith pat (pat ++ l2) (leadsWith_append pat l2)
  | cons c cs ih => simp [hasSubstr, ih]

theorem replaceFirstSub_exact (pat w : List Char) :
    replaceFirstSub pat [] (pat ++ w) = w := by
  cases pat with
  | nil => cases w <;> simp [replaceFirstSub, leadsWith]
  | cons c cs =>
    have hl : leadsWith (c :: cs) ((c :: cs) ++ w) = true := leadsWith_append (c :: cs) w
    rw [List.cons_append] at hl
    rw [List.cons_append, replaceFirstSub, if_pos hl]
    simp [List.drop_succ_cons, List.drop_left]

/-! ### Claim theorems: router and auxiliary components -/

/-- Claim C6: a request whose (method, pathname) pair matches no registered
route — matching is exact string equality on both components, with no
patterns and no trailing-slash normalization — makes `Router.handle` write
status 404 with a `Content-Type: text/plain` header and body exactly
`"Not Found"`, and end the response. -/
theorem routerHandle_unmatched_404 {H : Type} (routes : List (Route H))
    (method pathname : String)
    (h : ∀ r ∈ routes, ¬(r.method = method ∧ r.path = pathname)) :
    routerHandle routes method pathname =
      Sum.inr { status := 404, headers := [("Content-Type", "text/plain")]
                body := "Not Found", ended := true } := by
  have hfind : routes.find? (fun r => routeMatches r method pathname) = none := by
    induction routes with
    | nil => rfl
    | cons r rs ih =>
      have hr := h r (by simp)
      have hm : routeMatches r method pathname = false := by
        by_cases h1 : r.method = method
        · by_cases h2 : r.path = pathname
          · exact absurd ⟨h1, h2⟩ hr
          · simp [routeMatches, h2]
        · simp [routeMatches, h1]
      simp only [List.find?, hm]
      exact ih fun r' h' => h r' (List.mem_cons_of_mem _ h')
  rw [routerHandle, hfind]

theorem routerHandle_unmatched_404_witness :
    (∀ r ∈ [Route.mk "GET" "/" (0 : Nat)], ¬(r.method = "GET" ∧ r.path = "/nonexistent")) ∧
    routerHandle [Route.mk "GET" "/" (0 : Nat)] "GET" "/nonexistent" =
      Sum.inr { status := 404, headers := [("Content-Type", "text/plain")]
                body := "Not Found", ended := true } :=
  ⟨by decide, routerHandle_unmatched_404 _ _ _ (by decide)⟩

/-- Claim C7: `get`/`post` registration appends to the ordered route list,
and `Router.handle` dispatches to the first registered route matching the
(method, pathname) pair: whatever follows the first match — in particular a
later duplicate registration — never affects the dispatch. -/
theorem router_first_registered_wins {H : Type} (pre post routes : List (Route H))
    (r : Route H) (method pathname path0 : String) (h0 : H)
    (hr : routeMatches r method pathname = true)
    (hpre : ∀ r' ∈ pre, routeMatches r' method pathname = false) :
    routerGet routes path0 h0 = routes ++ [Route.mk "GET" path0 h0] ∧
    routerPost routes path0 h0 = routes ++ [Route.mk "POST" path0 h0] ∧
    routerHandle (pre ++ r :: post) method pathname = Sum.inl r.handler := by
  refine ⟨rfl, rfl, ?_⟩
  have hfind : (pre ++ r :: post).find? (fun r' => routeMatches r' method pathname)
      = some r := by
    induction pre with
    | nil => simp [List.find?, hr]
    | cons a pres ih =>
      have ha := hpre a (by simp)
      rw [List.cons_append]
      simp only [List.find?, ha]
      exact ih fun r' h' => hpre r' (List.mem_cons_of_mem _ h')
  rw [routerHandle, hfind]

theorem router_first_registered_wins_witness :
    routeMatches (Route.mk "POST" "/post" (2 : Nat)) "POST" "/post" = true ∧
    (∀ r' ∈ [Route.mk "GET" "/" (1 : Nat)], routeMatches r' "POST" "/post" = false) ∧
    routerHandle
      ([Route.mk "GET" "/" (1 : Nat)] ++
        Route.mk "POST" "/post" (2 : Nat) :: [Route.mk "POST" "/post" (3 : Nat)])
      "POST" "/post" = Sum.inl 2 :=
  ⟨by decide, by decide,
    (router_first_registered_wins _ _ [] _ "POST" "/post" "/" (0 : Nat)
      (by decide) (by decide)).2.2⟩

/-- Claim C10: the `GET /forms/post` handler answers a failed read of the
static HTML file with a 404 whose body is exactly `"File not found"` — a
different body than the router's `"Not Found"` for unmatched routes — and a
successful read with 200, `Content-Type: text/html` and the file contents. -/
theorem formsPostHandler_distinct_404 (fileData : String) :
    formsPostHandler none =
      { status := 404, headers := [("Content-Type", "text/plain")]
        body := "File not found", ended := true } ∧
    "File not found" ≠ "Not Found" ∧
    formsPostHandler (some fileData) =
      { status := 200, headers := [("Content-Type", "text/html")]
        body := fileData, ended := true } :=
  ⟨rfl, by decide, rfl⟩

/-- Claim C8: a step target URL of the shape `env:NAME` whose environment
variable `NAME` is unset makes `navigateToUrl` raise (no URL is ever handed
to `page.goto`, so no network action happens), and the error message
contains the placeholder — and hence the name of the missing variable. -/
theorem navigateToUrl_missing_env (env : String → Option String) (name : String)
    (h : env name = none) :
    navigateToUrl env ("env:" ++ name) =
      Except.error ("Environment variable for URL '" ++ ("env:" ++ name) ++ "' is not set.") ∧
    strIncludes ("Environment variable for URL '" ++ ("env:" ++ name) ++ "' is not set.")
      name = true := by
  constructor
  · have hstart : strStartsWith ("env:" ++ name) "env" = true := by
      rw [strStartsWith, data_append]
      exact leadsWith_extend _ _ _ (by decide)
    have hname : jsReplaceFirst ("env:" ++ name) "env:" "" = name := by
      rw [jsReplaceFirst, data_append]
      have : replaceFirstSub "env:".data "".data ("env:".data ++ name.data) = name.data :=
        replaceFirstSub_exact "env:".data name.data
      rw [this]
    rw [navigateToUrl, if_pos hstart, hname, h]
  · rw [strIncludes, data_append, data_append, data_append]
    have := hasSubstr_middle name.data
      ("Environment variable for URL '".data ++ "env:".data) ("' is not set.".data)
    simpa [List.append_assoc] using this

theorem navigateToUrl_missing_env_witness :
    (fun _ => (none : Option String)) "HTTPBIN_FORM_URL" = none ∧
    (navigateToUrl (fun _ => none) ("env:" ++ "HTTPBIN_FORM_URL") =
      Except.error ("Environment variable for URL '" ++ ("env:" ++ "HTTPBIN_FORM_URL") ++
        "' is not set.") ∧
     strIncludes ("Environment variable for URL '" ++ ("env:" ++ "HTTPBIN_FORM_URL") ++
        "' is not set.") "HTTPBIN_FORM_URL" = true) :=
  ⟨rfl, navigateToUrl_missing_env (fun _ => none) "HTTPBIN_FORM_URL" rfl⟩

/-! ### Claim theorems: the mirror handler -/

/-- Claim C1: when the declared `Content-Type` contains the substring
`"application/json"`, the mirror response's `json` field is exactly the
parse outcome — the parsed value when `JSON.parse` succeeds, `null` when it
throws (the handler catches and absorbs the error, so the model is a total
function) — the status is still 200, and `data` is the raw body unchanged. -/
theorem postHandler_json_content_type {J : Type} (parseJson : String → Option J)
    (req : MirrorRequest)
    (h : strIncludes (contentTypeOf req.headers) "application/json" = true) :
    (postHandler parseJson req).payload.json = parseJson req.body ∧
    (postHandler parseJson req).status = 200 ∧
    (postHandler parseJson req).payload.data = req.body :=
  ⟨by simp [postHandler, h], rfl, rfl⟩

def c1Parse : String → Option Nat := fun s => if s = "null" then some 0 else none

def c1Req : MirrorRequest :=
  { method := "POST", url := "http://localhost:3000/post", query := ""
    headers := [("host", some (NodeHV.str "localhost:3000")),
                ("content-type", some (NodeHV.str "application/json; charset=utf-8"))]
    remoteAddress := some "127.0.0.1", body := "null" }

theorem postHandler_json_content_type_witness :
    strIncludes (contentTypeOf c1Req.headers) "application/json" = true ∧
    ((postHandler c1Parse c1Req).payload.json = c1Parse c1Req.body ∧
     (postHandler c1Parse c1Req).status = 200 ∧
     (postHandler c1Parse c1Req).payload.data = c1Req.body) :=
  ⟨by decide, postHandler_json_content_type c1Parse c1Req (by decide)⟩

/-- Claim C2: at most one of `form`/`json` is populated, as determined by
the declared content type: `json` is non-null only when the content type
contains the JSON substring (and the body parses), `form` is non-empty only
when it contains the form-urlencoded substring, any other or absent content
type leaves `form = {}` and `json = null`, and in every case `data` carries
the verbatim body. -/
theorem postHandler_form_json_exclusive {J : Type} (parseJson : String → Option J)
    (req : MirrorRequest) :
    (postHandler parseJson req).payload.data = req.body ∧
    ¬((postHandler parseJson req).payload.json ≠ none ∧
      (postHandler parseJson req).payload.form ≠ []) ∧
    ((postHandler parseJson req).payload.json ≠ none →
      strIncludes (contentTypeOf req.headers) "application/json" = true) ∧
    ((postHandler parseJson req).payload.form ≠ [] →
      strIncludes (contentTypeOf req.headers) "application/x-www-form-urlencoded" = true) ∧
    (strIncludes (contentTypeOf req.headers) "application/json" = false →
      strIncludes (contentTypeOf req.headers) "application/x-www-form-urlencoded" = false →
      (postHandler parseJson req).payload.json = none ∧
      (postHandler parseJson req).payload.form = []) := by
  by_cases hj : strIncludes (contentTypeOf req.headers) "application/json" = true
  · have hform : (postHandler parseJson req).payload.form = [] := by
      simp [postHandler, hj]
    refine ⟨rfl, ?_, fun _ => hj, ?_, ?_⟩
    · intro hc
      exact hc.2 hform
    · intro hc
      exact absurd hform hc
    · intro hj' _
      rw [hj] at hj'
      cases hj'
  · have hj0 : strIncludes (contentTypeOf req.headers) "application/json" = false := by
      simpa using hj
    have hjson : (postHandler parseJson req).payload.json = none := by
      simp [postHandler, hj0]
    by_cases hf : strIncludes (contentTypeOf req.headers)
        "application/x-www-form-urlencoded" = true
    · refine ⟨rfl, ?_, ?_, fun _ => hf, ?_⟩
      · intro hc
        exact hc.1 hjson
      · intro hc
        exact absurd hjson hc
      · intro _ hf'
        rw [hf] at hf'
        cases hf'
    · have hf0 : strIncludes (contentTypeOf req.headers)
          "application/x-www-form-urlencoded" = false := by
        simpa using hf
      have hform : (postHandler parseJson req).payload.form = [] := by
        simp [postHandler, hj0, hf0]
      exact ⟨rfl, fun hc => hc.1 hjson, fun hc => absurd hjson hc,
        fun hc => absurd hform hc, fun _ _ => ⟨hjson, hform⟩⟩

/-- Claim C9: the handler checks the JSON substring before the form
substring, so a `Content-Type` containing both runs only the JSON branch: a
parse is attempted and `form` stays the empty map. -/
theorem postHandler_json_checked_first {J : Type} (parseJson : String → Option J)
    (req : MirrorRequest)
    (h1 : strIncludes (contentTypeOf req.headers) "application/json" = true)
    (_h2 : strIncludes (contentTypeOf req.headers) "application/x-www-form-urlencoded" = true) :
    (postHandler parseJson req).payload.json = parseJson req.body ∧
    (postHandler parseJson req).payload.form = [] :=
  ⟨by simp [postHandler, h1], by simp [postHandler, h1]⟩

def c9Parse : String → Option Nat := fun s => if s = "7" then some 7 else none

def c9Req : MirrorRequest :=
  { method := "POST", url := "http://localhost:3000/post", query := ""
    headers := [("content-type",
      some (NodeHV.str "application/json; application/x-www-form-urlencoded"))]
    remoteAddress := none, body := "7" }

theorem postHandler_json_checked_first_witness :
    strIncludes (contentTypeOf c9Req.headers) "application/json" = true ∧
    strIncludes (contentTypeOf c9Req.headers) "application/x-www-form-urlencoded" = true ∧
    ((postHandler c9Parse c9Req).payload.json = c9Parse c9Req.body ∧
     (postHandler c9Parse c9Req).payload.form = []) :=
  ⟨by decide, by decide,
    postHandler_json_checked_first c9Parse c9Req (by decide) (by decide)⟩

/-- Claim C4: the `args` field is `Object.fromEntries` of the decoded query
pairs, so each key appears exactly once (the key list has no duplicates) and
its value — a single string, by the very type of `args`, unlike the lists in
`form` — is that of the key's last occurrence in the query string (the first
match in the reversed pair list). -/
theorem postHandler_args_last_wins {J : Type} (parseJson : String → Option J)
    (req : MirrorRequest) (k : String) :
    (((postHandler parseJson req).payload.args.map Prod.fst).Nodup) ∧
    lookupRec k ((postHandler parseJson req).payload.args) =
      ((urlencodedPairs req.query).reverse.find? fun kv => kv.1 == k).map Prod.snd := by
  have hargs : (postHandler parseJson req).payload.args
      = fromEntries (urlencodedPairs req.query) := rfl
  constructor
  · rw [hargs, fromEntries]
    exact nodup_buildRecord _ [] (by simp)
  · rw [hargs, fromEntries, lookupRec_buildRecord_nil, lastVal_eq_reverse_find]

def c3CexReq : MirrorRequest :=
  { method := "POST", url := "http://localhost:3000/post", query := ""
    headers := [("content-type",
      some (NodeHV.str "application/json; application/x-www-form-urlencoded"))]
    remoteAddress := some "127.0.0.1", body := "a=1" }

/-- Claim C3, counterexample to the claim as stated: a request whose
`Content-Type` contains `"application/x-www-form-urlencoded"` (and also
`"application/json"`) with the submitted pair `a=1` nevertheless gets an
empty `form`, because the handler checks the JSON substring first; the claim
would require `form.a == ["1"]`. -/
theorem postHandler_form_content_type_cex :
    strIncludes (contentTypeOf c3CexReq.headers) "application/x-www-form-urlencoded" = true ∧
    qsBodyPairs c3CexReq.body = [("a", "1")] ∧
    (postHandler (fun _ => (none : Option Nat)) c3CexReq).payload.form = [] ∧
    lookupRec "a" ((postHandler (fun _ => (none : Option Nat)) c3CexReq).payload.form) ≠
      some ["1"] :=
  ⟨by decide, by decide, by decide, by decide⟩

/-- Claim C3 (amended twice, by no more than the code forces: the
Content-Type must additionally not contain `"application/json"`, since the
handler tests the JSON substring first — `postHandler_form_content_type_cex`
shows the claim fails without this — and only keys submitted within the
first `qsMaxKeys` = 1000 `&`-separated segments count, because
`querystring.parse` is called with its default `maxKeys` budget and drops
later segments — `parseForm_maxKeys_truncation` exercises this): for a
form-urlencoded POST body, `form` maps every key so submitted to the
ordered list of all its values among those segments, in submission order
(and omits keys contributing no such pair), and `json` is null. -/
theorem postHandler_form_content_type {J : Type} (parseJson : String → Option J)
    (req : MirrorRequest) (k : String)
    (h1 : strIncludes (contentTypeOf req.headers) "application/x-www-form-urlencoded" = true)
    (h2 : strIncludes (contentTypeOf req.headers) "application/json" = false) :
    lookupRec k ((postHandler parseJson req).payload.form) =
      (if allVals k (qsBodyPairs req.body) = [] then none
       else some (allVals k (qsBodyPairs req.body))) ∧
    (postHandler parseJson req).payload.json = none := by
  have hform : (postHandler parseJson req).payload.form = parseForm req.body := by
    simp [postHandler, h1, h2]
  refine ⟨?_, by simp [postHandler, h2]⟩
  rw [hform, lookupRec_parseForm]

def c3Req : MirrorRequest :=
  { method := "POST", url := "http://localhost:3000/post", query := ""
    headers := [("content-type", some (NodeHV.str "application/x-www-form-urlencoded"))]
    remoteAddress := some "127.0.0.1"
    body := "custname=John+Doe&topping=bacon&topping=cheese" }

theorem postHandler_form_content_type_witness :
    strIncludes (contentTypeOf c3Req.headers) "application/x-www-form-urlencoded" = true ∧
    strIncludes (contentTypeOf c3Req.headers) "application/json" = false ∧
    lookupRec "custname" ((postHandler (fun _ => (none : Option Nat)) c3Req).payload.form) =
      some ["John Doe"] ∧
    lookupRec "topping" ((postHandler (fun _ => (none : Option Nat)) c3Req).payload.form) =
      some ["bacon", "cheese"] ∧
    (postHandler (fun _ => (none : Option Nat)) c3Req).payload.json = none := by
  refine ⟨by decide, by decide, ?_, ?_, ?_⟩
  · exact ((postHandler_form_content_type (fun _ => (none : Option Nat)) c3Req "custname"
      (by decide) (by decide)).1).trans (by decide)
  · exact ((postHandler_form_content_type (fun _ => (none : Option Nat)) c3Req "topping"
      (by decide) (by decide)).1).trans (by decide)
  · exact (postHandler_form_content_type (fun _ => (none : Option Nat)) c3Req "topping"
      (by decide) (by decide)).2

/-- Claim C5: `parseHeaders` sends every defined header entry, in
declaration order, to the pair of its stored name with only the first
character capitalized (Node stores the lowercased original names) and its
value as an ordered list — a singleton for a single-valued header. The
no-duplicates hypothesis always holds for `req.headers`, whose keys are
distinct lowercase names. -/
theorem parseHeaders_capitalized_lists (hs : List (String × Option NodeHV))
    (h : ((headerEntries hs).map Prod.fst).Nodup) :
    parseHeaders hs = headerEntries hs ∧
    capFirst "content-type" = "Content-type" ∧
    ∀ (k s : String), headerEntries [(k, some (NodeHV.str s))] = [(capFirst k, [s])] := by
  refine ⟨?_, by decide, fun k s => rfl⟩
  rw [parseHeaders, buildRecord_of_nodup _ _ h (by simp)]
  simp

def c5Headers : List (String × Option NodeHV) :=
  [("host", some (NodeHV.str "localhost:3000")),
   ("content-type", some (NodeHV.str "application/x-www-form-urlencoded")),
   ("accept", some (NodeHV.arr ["text/html", "application/json"])),
   ("gone", none)]

theorem parseHeaders_capitalized_lists_witness :
    ((headerEntries c5Headers).map Prod.fst).Nodup ∧
    parseHeaders c5Headers = headerEntries c5Headers ∧
    parseHeaders c5Headers =
      [("Host", ["localhost:3000"]),
       ("Content-type", ["application/x-www-form-urlencoded"]),
       ("Accept", ["text/html", "application/json"])] :=
  ⟨by decide, (parseHeaders_capitalized_lists c5Headers (by decide)).1, by decide⟩

end LearnTesting
